import Mathlib

set_option maxHeartbeats 1000000
set_option maxRecDepth 8000

/-!
Shallow embedding of the frame-sampling / scroll-scrubbing logic of the
Veo-3-Studio front-end: the scroll preview component (frame extraction
loop, scroll handler, resize handler) and the exported standalone HTML
kit produced by the video-result component, together with theorems
settling the specification claims about them.
-/

/-- A video source with discoverable duration and intrinsic dimensions.
Numbers are modelled as exact rationals. -/
structure VideoSource where
  duration : ℚ
  width : ℚ
  height : ℚ
deriving DecidableEq

/-- A captured raster bitmap: the intrinsic size it was drawn at and the
timestamp the decoder was seeked to when it was captured. -/
structure Frame where
  width : ℚ
  height : ℚ
  timestamp : ℚ
deriving DecidableEq

/-- The frame count constant of the scroll preview component. -/
def FRAME_COUNT : ℕ := 100

/-- The seek target of iteration `i`: the code computes
`(duration / FRAME_COUNT) * i`. -/
def captureTime (d : ℚ) (N i : ℕ) : ℚ := d / N * i

/-- The progress value emitted in iteration `i`:
`Math.floor((i / FRAME_COUNT) * 100)`. -/
def progressAt (N i : ℕ) : ℤ := ⌊(i : ℚ) / (N : ℚ) * 100⌋

/-- Capturing the currently displayed frame into a bitmap sized to the
source's intrinsic width/height. -/
def captureFrame (v : VideoSource) (t : ℚ) : Frame := ⟨v.width, v.height, t⟩

/-- Environment of one sampling run.  `cancelAt` gives the event index at
which the `isActive` flag is cleared, on the event clock in which event
`2*i` is the top-of-loop flag check of iteration `i` and event `2*i+1` is
the append performed by iteration `i`'s seeked handler (`none`: never
cleared).  `loadFails` models a source whose metadata never resolves;
`captureFailsAt` models `drawImage` throwing inside the seeked event
listener of that iteration.  Neither failure can reach the `try`/`catch`:
the metadata promise wires only `resolve` and the listener's exception
bypasses the awaited promise, so both leave the run stalled, unlogged. -/
structure SampleEnv where
  cancelAt : Option ℕ
  loadFails : Bool
  captureFailsAt : Option ℕ
deriving DecidableEq

/-- Observable outcome of a sampling run: the frames pushed, the progress
values emitted, whether `setIsReady(true)` ran, and whether the `catch`
block logged an error (no modeled event can reach that dead handler, so
it stays `false` in every run). -/
structure SampleResult where
  frames : List Frame
  progress : List ℤ
  ready : Bool
  loggedError : Bool
deriving DecidableEq

/-- Value of the `isActive` flag at event index `e`. -/
def isActiveAt (env : SampleEnv) (e : ℕ) : Bool :=
  match env.cancelAt with
  | none => true
  | some t => decide (e < t)

/-- The extraction loop `for (let i = 0; i < FRAME_COUNT; i++)`, with
`rem` remaining iterations and `i` the current index.  Each iteration
first checks the `isActive` flag (returning without setting ready when it
is cleared); a capture step whose `drawImage` throws kills the seeked
listener before the push, the progress update and the promise resolution,
so the awaited promise never resolves and the run stalls with nothing
logged; otherwise the seeked handler unconditionally pushes the captured
bitmap and emits one progress value. -/
def sampleLoop (v : VideoSource) (N : ℕ) (env : SampleEnv) : ℕ → ℕ → SampleResult
  | 0, _ => ⟨[], [], true, false⟩
  | rem + 1, i =>
    if isActiveAt env (2 * i) then
      if env.captureFailsAt = some i then
        ⟨[], [], false, false⟩
      else
        ⟨captureFrame v (captureTime v.duration N i) ::
           (sampleLoop v N env rem (i + 1)).frames,
         progressAt N i :: (sampleLoop v N env rem (i + 1)).progress,
         (sampleLoop v N env rem (i + 1)).ready,
         (sampleLoop v N env rem (i + 1)).loggedError⟩
    else ⟨[], [], false, false⟩

/-- The whole `extractFrames` async function: await metadata (the promise
wires only `resolve`, so a failing load stalls the run before the loop —
nothing pushed, nothing logged, never ready), then run the loop;
`setIsReady(true)` runs only when the loop exits normally. -/
def extractFrames (v : VideoSource) (N : ℕ) (env : SampleEnv) : SampleResult :=
  if env.loadFails then ⟨[], [], false, false⟩ else sampleLoop v N env N 0

/-- The environment of an undisturbed run: never cancelled, no failures. -/
def cleanEnv : SampleEnv := ⟨none, false, none⟩

/-- A concrete 10-second 16x9 source used for witnesses. -/
def vid0 : VideoSource := ⟨10, 16, 9⟩

lemma sampleLoop_succ (v : VideoSource) (N : ℕ) (env : SampleEnv) (rem i : ℕ) :
    sampleLoop v N env (rem + 1) i =
      if isActiveAt env (2 * i) then
        if env.captureFailsAt = some i then
          ⟨[], [], false, false⟩
        else
          ⟨captureFrame v (captureTime v.duration N i) ::
             (sampleLoop v N env rem (i + 1)).frames,
           progressAt N i :: (sampleLoop v N env rem (i + 1)).progress,
           (sampleLoop v N env rem (i + 1)).ready,
           (sampleLoop v N env rem (i + 1)).loggedError⟩
      else ⟨[], [], false, false⟩ := rfl

/-- Whenever the loop exits with `ready = true`, it performed every one of
its `rem` iterations, pushing one frame per iteration at the iteration's
seek target. -/
lemma sampleLoop_ready_frames (v : VideoSource) (N : ℕ) (env : SampleEnv) :
    ∀ rem i, (sampleLoop v N env rem i).ready = true →
      (sampleLoop v N env rem i).frames.length = rem ∧
      ∀ k, k < rem → (sampleLoop v N env rem i).frames.get? k =
        some (captureFrame v (captureTime v.duration N (i + k))) := by
  intro rem
  induction rem with
  | zero => intro i _; exact ⟨rfl, fun k hk => absurd hk (Nat.not_lt_zero k)⟩
  | succ rem ih =>
    intro i hready
    rw [sampleLoop_succ] at hready ⊢
    by_cases hact : isActiveAt env (2 * i) = true
    · by_cases hfail : env.captureFailsAt = some i
      · rw [if_pos hact, if_pos hfail] at hready
        exact absurd hready (by simp)
      · rw [if_pos hact, if_neg hfail] at hready ⊢
        have hrest := ih (i + 1) hready
        refine ⟨by simpa using hrest.1, ?_⟩
        intro k hk
        cases k with
        | zero => rfl
        | succ k =>
          have hk' : k < rem := Nat.lt_of_succ_lt_succ hk
          have h2 := hrest.2 k hk'
          have e : i + 1 + k = i + (k + 1) := by omega
          rw [e] at h2
          exact h2
    · rw [if_neg hact] at hready
      exact absurd hready (by simp)

/-- An undisturbed loop always exits ready. -/
lemma sampleLoop_clean_ready (v : VideoSource) (N : ℕ) :
    ∀ rem i, (sampleLoop v N cleanEnv rem i).ready = true := by
  intro rem
  induction rem with
  | zero => intro i; rfl
  | succ rem ih => intro i; exact ih (i + 1)

/-- Run cancelled at event `t`: the flag is cleared between the `t`-th and
`(t+1)`-th loop events. -/
def cancelEnv (t : ℕ) : SampleEnv := ⟨some t, false, none⟩

/-- Run whose capture step of iteration `j` throws in the seeked
listener. -/
def failEnv (j : ℕ) : SampleEnv := ⟨none, false, some j⟩

/-- Run whose metadata never resolves. -/
def loadFailEnv : SampleEnv := ⟨none, true, none⟩

lemma isActiveAt_cancel (t e : ℕ) :
    isActiveAt (cancelEnv t) e = true ↔ e < t := by
  simp [isActiveAt, cancelEnv]

/-- Frames pushed by a cancelled loop: iteration `k` pushes exactly when
its top-of-loop check (event `2*k`) happens before the flag clears. -/
lemma sampleLoop_cancel_length (v : VideoSource) (N t : ℕ) :
    ∀ rem i, (sampleLoop v N (cancelEnv t) rem i).frames.length =
      min rem ((t + 1) / 2 - i) := by
  intro rem
  induction rem with
  | zero =>
    intro i
    show (0 : ℕ) = min 0 ((t + 1) / 2 - i)
    omega
  | succ rem ih =>
    intro i
    rw [sampleLoop_succ]
    by_cases h : 2 * i < t
    · rw [if_pos ((isActiveAt_cancel t (2 * i)).mpr h),
          if_neg (by simp [cancelEnv])]
      have hrec := ih (i + 1)
      simp only [List.length_cons, hrec]
      omega
    · rw [if_neg (by rw [isActiveAt_cancel]; omega)]
      have h0 : (⟨[], [], false, false⟩ : SampleResult).frames.length = 0 := rfl
      rw [h0]
      omega

/-- Readiness of a cancelled loop: `setIsReady` runs exactly when every
remaining top-of-loop check happens before the flag clears. -/
lemma sampleLoop_cancel_ready (v : VideoSource) (N t : ℕ) :
    ∀ rem i, ((sampleLoop v N (cancelEnv t) rem i).ready = true ↔
      ∀ k, i ≤ k → k < i + rem → 2 * k < t) := by
  intro rem
  induction rem with
  | zero =>
    intro i
    constructor
    · intro _ k hk1 hk2; omega
    · intro _; rfl
  | succ rem ih =>
    intro i
    rw [sampleLoop_succ]
    by_cases h : 2 * i < t
    · rw [if_pos ((isActiveAt_cancel t (2 * i)).mpr h),
          if_neg (by simp [cancelEnv])]
      have ihs := ih (i + 1)
      constructor
      · intro hr k hk1 hk2
        rcases Nat.eq_or_lt_of_le hk1 with he | hlt
        · omega
        · exact ihs.mp hr k (by omega) (by omega)
      · intro hall
        exact ihs.mpr (fun k hk1 hk2 => hall k (by omega) (by omega))
    · rw [if_neg (by rw [isActiveAt_cancel]; omega)]
      constructor
      · intro hr; exact absurd hr (by simp)
      · intro hall
        exact absurd (hall i le_rfl (by omega)) h

/-- A loop whose iteration `j` throws inside the seeked listener: the run
stalls at `j` — ready never set, nothing logged — keeping exactly the
`j - i` frames captured before it, each captured once at its own seek
target. -/
lemma sampleLoop_fail (v : VideoSource) (N j : ℕ) :
    ∀ rem i, i ≤ j → j < i + rem →
      (sampleLoop v N (failEnv j) rem i).ready = false ∧
      (sampleLoop v N (failEnv j) rem i).loggedError = false ∧
      (sampleLoop v N (failEnv j) rem i).frames.length = j - i ∧
      ∀ k, k < j - i → (sampleLoop v N (failEnv j) rem i).frames.get? k =
        some (captureFrame v (captureTime v.duration N (i + k))) := by
  intro rem
  induction rem with
  | zero => intro i h1 h2; omega
  | succ rem ih =>
    intro i h1 h2
    rw [sampleLoop_succ]
    rw [if_pos (show isActiveAt (failEnv j) (2 * i) = true from rfl)]
    by_cases hij : j = i
    · rw [if_pos (by simp [failEnv, hij])]
      refine ⟨rfl, rfl, ?_, fun k hk => by omega⟩
      show (0 : ℕ) = j - i
      omega
    · rw [if_neg (by simp [failEnv]; omega)]
      have hrest := ih (i + 1) (by omega) (by omega)
      refine ⟨hrest.1, hrest.2.1, ?_, ?_⟩
      · have := hrest.2.2.1
        simp only [List.length_cons, this]
        omega
      · intro k hk
        cases k with
        | zero =>
          have e0 : i + 0 = i := rfl
          rfl
        | succ k =>
          have hk' : k < j - (i + 1) := by omega
          have h2' := hrest.2.2.2 k hk'
          have e : i + 1 + k = i + (k + 1) := by omega
          rw [e] at h2'
          exact h2'

lemma progressAt_nonneg (N i : ℕ) : 0 ≤ progressAt N i := by
  apply Int.floor_nonneg.mpr
  positivity

lemma progressAt_le (N i : ℕ) (h : i < N) : progressAt N i ≤ 100 := by
  have hN : (0 : ℚ) < N := by
    have : 0 < N := Nat.pos_of_ne_zero (by omega)
    exact_mod_cast this
  have hi : (i : ℚ) ≤ N := by exact_mod_cast Nat.le_of_lt h
  have h1 : (i : ℚ) / N ≤ 1 := (div_le_one hN).mpr hi
  have h2 : (i : ℚ) / N * 100 ≤ 100 := by nlinarith
  calc progressAt N i ≤ ⌊(100 : ℚ)⌋ := Int.floor_le_floor h2
    _ = 100 := by norm_num

lemma progressAt_mono (N : ℕ) {i j : ℕ} (h : i ≤ j) :
    progressAt N i ≤ progressAt N j := by
  apply Int.floor_le_floor
  rcases Nat.eq_zero_or_pos N with hN | hN
  · simp [hN]
  · have hN' : (0 : ℚ) < N := by exact_mod_cast hN
    have hij : (i : ℚ) ≤ (j : ℚ) := by exact_mod_cast h
    gcongr

/-- C1.  For every `N ≥ 1` and every video source of duration `d`, in any
run in which the ready signal fires the produced frame set holds exactly
`N` bitmaps, and the `i`-th bitmap (for `i < N`) was captured at timestamp
`d * i / N`. -/
theorem c1_frameset_complete (v : VideoSource) (N : ℕ) (env : SampleEnv)
    (hN : 1 ≤ N) (hready : (extractFrames v N env).ready = true) :
    (extractFrames v N env).frames.length = N ∧
    ∀ i, i < N → (extractFrames v N env).frames.get? i =
      some (captureFrame v (v.duration * i / N)) := by
  unfold extractFrames at hready ⊢
  by_cases hl : env.loadFails = true
  · rw [if_pos hl] at hready
    exact absurd hready (by simp)
  · rw [if_neg hl] at hready ⊢
    have h := sampleLoop_ready_frames v N env N 0 hready
    refine ⟨h.1, fun i hi => ?_⟩
    have hg := h.2 i hi
    rw [hg]
    simp only [Nat.zero_add]
    unfold captureFrame captureTime
    rw [div_mul_eq_mul_div]

/-- Witness for C1 at a concrete complete run. -/
theorem c1_frameset_complete_witness :
    (1 ≤ 2 ∧ (extractFrames vid0 2 cleanEnv).ready = true) ∧
    (extractFrames vid0 2 cleanEnv).frames.length = 2 :=
  ⟨⟨by decide, by decide⟩,
   (c1_frameset_complete vid0 2 cleanEnv (by decide) (by decide)).1⟩

/-- C4 counterexample.  The code checks the active flag only at the top of
each iteration, never before appending: clearing the flag during iteration
30's in-flight seek (event clock 61: after 30 frames were captured) still
appends a 31st frame; and clearing it during the final iteration's
in-flight seek (event clock 199: after 99 of 100 frames) still lets the
run finish and set ready. -/
theorem c4_counterexample :
    (extractFrames vid0 100 (cancelEnv 61)).frames.length = 31 ∧
    (extractFrames vid0 100 (cancelEnv 199)).ready = true := by
  constructor
  · have h := sampleLoop_cancel_length vid0 100 61 100 0
    calc (extractFrames vid0 100 (cancelEnv 61)).frames.length
        = min 100 ((61 + 1) / 2 - 0) := h
      _ = 31 := by norm_num
  · exact (sampleLoop_cancel_ready vid0 100 199 100 0).mpr
      (fun k hk1 hk2 => by omega)

/-- C4 amended.  The active flag is checked only at the top of each loop
iteration, not before appending: when it is cleared at event `t` (with
`t / 2` frames captured at that instant), at most one further in-flight
capture is appended, so the frame set holds at most `t / 2 + 1` frames;
and provided the clearing happens strictly before the final iteration's
append (`t + 1 < 2 * N`), the ready state is never reached. -/
theorem c4_cancellation_amended (v : VideoSource) (N t : ℕ)
    (h : t + 1 < 2 * N) :
    (extractFrames v N (cancelEnv t)).ready = false ∧
    (extractFrames v N (cancelEnv t)).frames.length ≤ t / 2 + 1 := by
  constructor
  · rcases Bool.eq_false_or_eq_true ((extractFrames v N (cancelEnv t)).ready)
      with hb | hb
    · exfalso
      have hall := (sampleLoop_cancel_ready v N t N 0).mp hb
      have := hall (N - 1) (by omega) (by omega)
      omega
    · exact hb
  · have hlen := sampleLoop_cancel_length v N t N 0
    calc (extractFrames v N (cancelEnv t)).frames.length
        = min N ((t + 1) / 2 - 0) := hlen
      _ ≤ t / 2 + 1 := by omega

/-- Witness for the amended C4 at a concrete cancelled run. -/
theorem c4_cancellation_amended_witness :
    (61 + 1 < 2 * 100) ∧
    (extractFrames vid0 100 (cancelEnv 61)).ready = false :=
  ⟨by decide, (c4_cancellation_amended vid0 100 61 (by decide)).1⟩

/-- C6 (code bug).  In the source neither error kind can reach the
`try`/`catch`: the metadata promise wires only `resolve` (a failing load
stalls the run before the loop), and `drawImage` runs inside the seeked
event listener, whose exception bypasses the awaited promise (the run
stalls mid-loop).  Sampling does halt, no step is retried, nothing
propagates to the host, and ready never becomes true — but contrary to
the claim, and to the intent of the unreachable `console.error` handler,
the error is never logged.  Evaluated at two concrete failing runs: a
failing load, and a capture failure at iteration `5` of `100`. -/
theorem c6_error_stalls :
    ((extractFrames vid0 100 loadFailEnv).ready = false ∧
     (extractFrames vid0 100 loadFailEnv).loggedError = false ∧
     (extractFrames vid0 100 loadFailEnv).frames = []) ∧
    ((extractFrames vid0 100 (failEnv 5)).ready = false ∧
     (extractFrames vid0 100 (failEnv 5)).loggedError = false ∧
     (extractFrames vid0 100 (failEnv 5)).frames.length = 5) := by
  refine ⟨⟨rfl, rfl, rfl⟩, ?_⟩
  have h := sampleLoop_fail vid0 100 5 100 0 (by omega) (by omega)
  exact ⟨h.1, h.2.1, by simpa using h.2.2.1⟩

/-- The frame times of the GIF exporter loop: `step = duration / frames`,
frame `i` captured at `i * step`. -/
def gifFrameTimes (d : ℚ) (frames : ℕ) : List ℚ :=
  (List.range frames).map (fun i => (i : ℚ) * (d / frames))

/-- Exactly one progress emission per captured frame, in every
environment: the two lists built by the loop grow in lockstep, hold at
most `rem` entries, and entry `k` is `progressAt N (i + k)`. -/
lemma sampleLoop_progress_all (v : VideoSource) (N : ℕ) (env : SampleEnv) :
    ∀ rem i,
      (sampleLoop v N env rem i).progress.length =
        (sampleLoop v N env rem i).frames.length ∧
      (sampleLoop v N env rem i).progress.length ≤ rem ∧
      ∀ k, k < (sampleLoop v N env rem i).progress.length →
        (sampleLoop v N env rem i).progress.get? k =
          some (progressAt N (i + k)) := by
  intro rem
  induction rem with
  | zero => intro i; exact ⟨rfl, le_rfl, fun k hk => absurd hk (Nat.not_lt_zero k)⟩
  | succ rem ih =>
    intro i
    rw [sampleLoop_succ]
    by_cases hact : isActiveAt env (2 * i) = true
    · by_cases hfail : env.captureFailsAt = some i
      · rw [if_pos hact, if_pos hfail]
        exact ⟨rfl, Nat.zero_le _, fun k hk => absurd hk (Nat.not_lt_zero k)⟩
      · rw [if_pos hact, if_neg hfail]
        have hrest := ih (i + 1)
        refine ⟨?_, ?_, ?_⟩
        · simp only [List.length_cons, hrest.1]
        · simp only [List.length_cons]
          have := hrest.2.1
          omega
        · intro k hk
          cases k with
          | zero => rfl
          | succ k =>
            have hk2 : k < (sampleLoop v N env rem (i + 1)).progress.length := by
              simp only [List.length_cons] at hk
              omega
            have h2 := hrest.2.2 k hk2
            have e : i + 1 + k = i + (k + 1) := by omega
            rw [e] at h2
            exact h2
    · rw [if_neg hact]
      exact ⟨rfl, Nat.zero_le _, fun k hk => absurd hk (Nat.not_lt_zero k)⟩

/-- C7.  In every sampling run with frame count `N` — complete, cancelled
or failing — the progress value emitted after capturing frame `i` is
`⌊i / N * 100⌋`; the emitted sequence has exactly one entry per captured
frame, is monotonically non-decreasing, and stays inside `[0, 100]`. -/
theorem c7_progress (v : VideoSource) (N : ℕ) (env : SampleEnv) :
    (extractFrames v N env).progress.length =
      (extractFrames v N env).frames.length ∧
    (∀ i, i < (extractFrames v N env).frames.length →
      (extractFrames v N env).progress.get? i = some ⌊(i : ℚ) / N * 100⌋) ∧
    (∀ i j pi pj, i ≤ j →
      (extractFrames v N env).progress.get? i = some pi →
      (extractFrames v N env).progress.get? j = some pj → pi ≤ pj) ∧
    (∀ i pi, (extractFrames v N env).progress.get? i = some pi →
      0 ≤ pi ∧ pi ≤ 100) := by
  by_cases hl : env.loadFails = true
  · have he : extractFrames v N env = ⟨[], [], false, false⟩ := by
      unfold extractFrames
      rw [if_pos hl]
    rw [he]
    refine ⟨rfl, ?_, ?_, ?_⟩
    · intro i hi
      exact absurd hi (by simp)
    · intro i j pi pj _ hpi _
      exact absurd hpi (by simp)
    · intro i pi hpi
      exact absurd hpi (by simp)
  · have he : extractFrames v N env = sampleLoop v N env N 0 := by
      unfold extractFrames
      rw [if_neg hl]
    rw [he]
    obtain ⟨hlen, hle, hget⟩ := sampleLoop_progress_all v N env N 0
    have hdom : ∀ i pi, (sampleLoop v N env N 0).progress.get? i = some pi →
        i < (sampleLoop v N env N 0).progress.length ∧ pi = progressAt N i := by
      intro i pi hpi
      have hi : i < (sampleLoop v N env N 0).progress.length := by
        by_contra hc
        have hn : (sampleLoop v N env N 0).progress.length ≤ i := by omega
        rw [List.get?_eq_none.mpr hn] at hpi
        exact Option.noConfusion hpi
      have hv := hget i hi
      rw [hv] at hpi
      have : progressAt N (0 + i) = pi := Option.some.inj hpi
      rw [Nat.zero_add] at this
      exact ⟨hi, this.symm⟩
    refine ⟨hlen, ?_, ?_, ?_⟩
    · intro i hi
      have hi2 : i < (sampleLoop v N env N 0).progress.length := by
        rw [hlen]
        exact hi
      have hv := hget i hi2
      rw [hv]
      simp only [Nat.zero_add]
      rfl
    · intro i j pi pj hij hpi hpj
      obtain ⟨hi, hpi2⟩ := hdom i pi hpi
      obtain ⟨hj, hpj2⟩ := hdom j pj hpj
      rw [hpi2, hpj2]
      exact progressAt_mono N hij
    · intro i pi hpi
      obtain ⟨hi, hpi2⟩ := hdom i pi hpi
      have hiN : i < N := by omega
      rw [hpi2]
      exact ⟨progressAt_nonneg N i, progressAt_le N i hiN⟩

lemma progress_vid0_get1 :
    (extractFrames vid0 2 cleanEnv).progress.get? 1 = some 50 := by
  have h : (extractFrames vid0 2 cleanEnv).progress.get? 1 =
      some (progressAt 2 1) := rfl
  rw [h, progressAt]
  norm_num

/-- Witness for C7 at a concrete run. -/
theorem c7_progress_witness :
    ((extractFrames vid0 2 cleanEnv).progress.get? 1 = some 50) ∧
    (0 ≤ (50 : ℤ) ∧ (50 : ℤ) ≤ 100) :=
  ⟨progress_vid0_get1,
   (c7_progress vid0 2 cleanEnv).2.2.2 1 50 progress_vid0_get1⟩

/-- C8 counterexample.  For a requested frame count of `0` (which is
`≤ 1`), the sampling loop body never runs, so the run performs zero
captures, not the single capture at `t = 0` the claim demands. -/
theorem c8_counterexample :
    ¬((extractFrames vid0 0 cleanEnv).frames.length = 1) := by decide

/-- C8 amended.  For a requested frame count `N = 1` sampling degenerates
to exactly one capture taken at timestamp `t = 0` (in both the preview
sampler and the GIF exporter's time schedule); for `N = 0` the loop styles
perform no capture at all. -/
theorem c8_degenerate_amended (v : VideoSource) :
    (extractFrames v 1 cleanEnv).frames = [captureFrame v 0] ∧
    (extractFrames v 1 cleanEnv).ready = true ∧
    (extractFrames v 0 cleanEnv).frames = [] ∧
    gifFrameTimes v.duration 1 = [0] ∧
    gifFrameTimes v.duration 0 = [] := by
  have h1 : extractFrames v 1 cleanEnv =
      ⟨[captureFrame v (captureTime v.duration 1 0)], [progressAt 1 0],
       true, false⟩ := rfl
  refine ⟨?_, rfl, rfl, ?_, rfl⟩
  · rw [h1]
    simp [captureTime]
  · have h2 : gifFrameTimes v.duration 1 =
        [((0 : ℕ) : ℚ) * (v.duration / ((1 : ℕ) : ℚ))] := rfl
    rw [h2]
    norm_num

/-- The clamp `Math.max(0, Math.min(1, p))` applied to the scroll ratio. -/
def clamp01 (p : ℚ) : ℚ := max 0 (min 1 p)

/-- Frame selection of the scroll handler:
`Math.floor(scrollPercent * (frames.length - 1))`, the scroll percent
being the clamped ratio; the subtraction is JS numeric subtraction, so an
empty frame set gives factor `-1`. -/
def frameIndex (L : ℕ) (p : ℚ) : ℤ := ⌊clamp01 p * ((L : ℚ) - 1)⌋

/-- JS array indexing `S[i]` for an integral index: `undefined` (`none`)
for negative or out-of-range indices. -/
def getAt (l : List Frame) (i : ℤ) : Option Frame :=
  if 0 ≤ i then l.get? i.toNat else none

/-- The ratio `scrollTop / (scrollHeight - clientHeight)` as JS computes
it, recording the IEEE special cases as the clamp will resolve them:
`0 / 0` is NaN (`none`; the clamp keeps NaN and the later array lookup
yields `undefined`), a positive numerator over zero is `+Infinity`, which
the clamp sends to `1`, and a negative one is `-Infinity`, sent to `0`. -/
def scrollFraction (scrollTop range : ℚ) : Option ℚ :=
  if range = 0 then
    if scrollTop = 0 then none
    else if 0 < scrollTop then some 1
    else some 0
  else some (scrollTop / range)

/-- The cover-fit computation of the scroll handler, returning
`(drawWidth, drawHeight, offsetX, offsetY)`. -/
def coverFit (fw fh W H : ℚ) : ℚ × ℚ × ℚ × ℚ :=
  if W / H > fw / fh then
    (W, W / (fw / fh), 0, (H - W / (fw / fh)) / 2)
  else
    (H * (fw / fh), H, (W - H * (fw / fh)) / 2, 0)

/-- One draw performed by the scrubber: the surface-sized clear followed
by `drawImage(frame, offsetX, offsetY, drawWidth, drawHeight)`, recording
the selected frame index. -/
structure DrawCmd where
  index : ℕ
  clearW : ℚ
  clearH : ℚ
  drawW : ℚ
  drawH : ℚ
  offsetX : ℚ
  offsetY : ℚ
deriving DecidableEq

/-- The body of the scroll handler once the scroll ratio `r` is known:
select the frame, and when the lookup yields a bitmap, clear the surface
and draw it cover-fitted; otherwise do nothing. -/
def drawFraction (frames : List Frame) (W H r : ℚ) : Option DrawCmd :=
  match getAt frames (frameIndex frames.length r) with
  | none => none
  | some f =>
    some ⟨(frameIndex frames.length r).toNat, W, H,
          (coverFit f.width f.height W H).1,
          (coverFit f.width f.height W H).2.1,
          (coverFit f.width f.height W H).2.2.1,
          (coverFit f.width f.height W H).2.2.2⟩

/-- The whole scroll handler: compute the scroll ratio from the container
metrics, then select and draw. -/
def renderAt (frames : List Frame) (W H scrollTop range : ℚ) :
    Option DrawCmd :=
  match scrollFraction scrollTop range with
  | none => none
  | some r => drawFraction frames W H r

/-- The frame lookup embedded in the scroll handler (`S[frameIndex]`). -/
def lookupFrame (frames : List Frame) (scrollTop range : ℚ) : Option Frame :=
  match scrollFraction scrollTop range with
  | none => none
  | some r => getAt frames (frameIndex frames.length r)

/-- Applying an optional draw to the surface's paint log: a `none` draw
leaves the surface untouched. -/
def applyDraw (surf : List DrawCmd) (cmd : Option DrawCmd) : List DrawCmd :=
  match cmd with
  | none => surf
  | some c => c :: surf

lemma clamp01_nonneg (p : ℚ) : 0 ≤ clamp01 p := le_max_left 0 _

lemma clamp01_le_one (p : ℚ) : clamp01 p ≤ 1 :=
  max_le (by norm_num) (min_le_left 1 p)

lemma clamp01_mono {p q : ℚ} (h : p ≤ q) : clamp01 p ≤ clamp01 q :=
  max_le_max le_rfl (min_le_min le_rfl h)

lemma clamp01_of_mem {p : ℚ} (h0 : 0 ≤ p) (h1 : p ≤ 1) : clamp01 p = p := by
  rw [clamp01, min_eq_right h1, max_eq_right h0]

/-- C2.  For a frame set of length `L ≥ 1`, the selected frame index is
`⌊clamp01 fraction * (L - 1)⌋`; it stays in `[0, L-1]`, is monotonically
non-decreasing in the fraction, is `0` at fraction `0` and `L - 1` at
fraction `1`, and for `L = 100`, fraction `1/2` it is `49`. -/
theorem c2_frame_index (L : ℕ) (hL : 1 ≤ L) (p q : ℚ) :
    (p ≤ q → frameIndex L p ≤ frameIndex L q) ∧
    (0 ≤ frameIndex L p ∧ frameIndex L p ≤ (L : ℤ) - 1) ∧
    frameIndex L 0 = 0 ∧
    frameIndex L 1 = (L : ℤ) - 1 ∧
    frameIndex 100 (1 / 2) = 49 := by
  have hL' : (1 : ℚ) ≤ (L : ℚ) := by exact_mod_cast hL
  have hLnn : (0 : ℚ) ≤ (L : ℚ) - 1 := by linarith
  have hcast : ((L : ℚ) - 1) = (((L : ℤ) - 1 : ℤ) : ℚ) := by push_cast; ring
  refine ⟨?_, ⟨?_, ?_⟩, ?_, ?_, ?_⟩
  · intro hpq
    exact Int.floor_le_floor
      (mul_le_mul_of_nonneg_right (clamp01_mono hpq) hLnn)
  · exact Int.floor_nonneg.mpr (mul_nonneg (clamp01_nonneg p) hLnn)
  · calc frameIndex L p ≤ ⌊((L : ℚ) - 1)⌋ :=
          Int.floor_le_floor (mul_le_of_le_one_left hLnn (clamp01_le_one p))
      _ = (L : ℤ) - 1 := by rw [hcast, Int.floor_intCast]
  · rw [frameIndex, clamp01_of_mem le_rfl (by norm_num), zero_mul,
       Int.floor_zero]
  · rw [frameIndex, clamp01_of_mem (by norm_num) le_rfl, one_mul, hcast,
       Int.floor_intCast]
  · rw [frameIndex, clamp01_of_mem (by norm_num) (by norm_num)]
    norm_num

/-- Witness for C2 at `L = 100` with a concrete pair of fractions. -/
theorem c2_frame_index_witness :
    (1 ≤ 100 ∧ (3 : ℚ) / 10 ≤ 6 / 10) ∧
    (frameIndex 100 (3 / 10) ≤ frameIndex 100 (6 / 10) ∧
     frameIndex 100 (1 / 2) = 49) :=
  ⟨⟨by norm_num, by norm_num⟩,
   (c2_frame_index 100 (by norm_num) (3 / 10) (6 / 10)).1 (by norm_num),
   (c2_frame_index 100 (by norm_num) (3 / 10) (6 / 10)).2.2.2.2⟩

/-- C3.  For positive frame and surface dimensions, cover-fit covers the
surface (`drawW ≥ W`, `drawH ≥ H`), preserves the frame aspect ratio
(`drawW / drawH = fw / fh`), and centers the image (the offsets split the
overhang evenly); when the surface aspect exceeds the frame aspect the
width-fill branch is taken: `drawW = W`, `offsetX = 0`, the vertical
offset centering the image. -/
theorem c3_cover_fit (fw fh W H : ℚ) (hfw : 0 < fw) (hfh : 0 < fh)
    (hW : 0 < W) (hH : 0 < H) :
    (W ≤ (coverFit fw fh W H).1 ∧ H ≤ (coverFit fw fh W H).2.1) ∧
    (coverFit fw fh W H).1 / (coverFit fw fh W H).2.1 = fw / fh ∧
    (2 * (coverFit fw fh W H).2.2.1 + (coverFit fw fh W H).1 = W ∧
     2 * (coverFit fw fh W H).2.2.2 + (coverFit fw fh W H).2.1 = H) ∧
    (fw / fh < W / H →
      (coverFit fw fh W H).1 = W ∧ (coverFit fw fh W H).2.2.1 = 0 ∧
      (coverFit fw fh W H).2.2.2 =
        (H - (coverFit fw fh W H).2.1) / 2) := by
  have hfa : 0 < fw / fh := div_pos hfw hfh
  rw [coverFit]
  by_cases h : W / H > fw / fh
  · rw [if_pos h]
    have hcover : H ≤ W / (fw / fh) := by
      rw [le_div_iff₀ hfa]
      have h2 : fw / fh * H < W := (lt_div_iff₀ hH).mp h
      calc H * (fw / fh) = fw / fh * H := by ring
        _ ≤ W := le_of_lt h2
    refine ⟨⟨le_rfl, hcover⟩, ?_, ⟨by ring, by ring⟩, fun _ => ⟨rfl, rfl, rfl⟩⟩
    show W / (W / (fw / fh)) = fw / fh
    rw [div_div_eq_mul_div, mul_comm, mul_div_assoc, div_self (ne_of_gt hW),
       mul_one]
  · rw [if_neg h]
    push_neg at h
    have hcover : W ≤ H * (fw / fh) :=
      calc W ≤ fw / fh * H := (div_le_iff₀ hH).mp h
        _ = H * (fw / fh) := by ring
    refine ⟨⟨hcover, le_rfl⟩, ?_, ⟨by ring, by ring⟩,
      fun hlt => absurd hlt (not_lt.mpr h)⟩
    show H * (fw / fh) / H = fw / fh
    rw [mul_comm, mul_div_assoc, div_self (ne_of_gt hH), mul_one]

/-- Witness for C3 at a 4:3 frame on a 16:9 surface (width-fill branch). -/
theorem c3_cover_fit_witness :
    ((0 : ℚ) < 4 ∧ (0 : ℚ) < 3 ∧ (0 : ℚ) < 16 ∧ (0 : ℚ) < 9) ∧
    ((4 : ℚ) / 3 < 16 / 9 ∧ (coverFit 4 3 16 9).1 = 16) :=
  ⟨⟨by norm_num, by norm_num, by norm_num, by norm_num⟩, by norm_num,
   ((c3_cover_fit 4 3 16 9 (by norm_num) (by norm_num) (by norm_num)
      (by norm_num)).2.2.2 (by norm_num)).1⟩

/-- The exported kit's frame count constant `F = 100`. -/
def kitFrameCount : ℕ := 100

/-- The exported kit's seek target for iteration `i`: `d / F * i`. -/
def kitCaptureTime (d : ℚ) (i : ℕ) : ℚ := d / kitFrameCount * i

/-- The exported kit's frame selection `Math.floor(p * (S.length - 1))`
(the kit's `D` applies no clamp to the incoming fraction). -/
def kitFrameIndex (L : ℕ) (p : ℚ) : ℤ := ⌊p * ((L : ℚ) - 1)⌋

/-- The exported kit's cover computation: `b > a` takes the width-fill
branch, otherwise the height-fill branch; returns `(w, h, X, Y)`. -/
def kitCover (fw fh W H : ℚ) : ℚ × ℚ × ℚ × ℚ :=
  if W / H > fw / fh then
    (W, W / (fw / fh), 0, (H - W / (fw / fh)) / 2)
  else
    (H * (fw / fh), H, (W - H * (fw / fh)) / 2, 0)

/-- The exported kit's draw routine `D(p)`: select `S[i]`, return when the
bitmap is missing, else clear the canvas and draw cover-fitted. -/
def kitRender (frames : List Frame) (W H p : ℚ) : Option DrawCmd :=
  match getAt frames (kitFrameIndex frames.length p) with
  | none => none
  | some m =>
    some ⟨(kitFrameIndex frames.length p).toNat, W, H,
          (kitCover m.width m.height W H).1,
          (kitCover m.width m.height W H).2.1,
          (kitCover m.width m.height W H).2.2.1,
          (kitCover m.width m.height W H).2.2.2⟩

/-- C5.  The exported standalone HTML kit re-embeds the in-app algorithm
exactly: same frame count, same capture timestamps, identical cover-fit
computation, and — for any scroll fraction in `[0, 1]`, the range native
scrolling produces — the same frame selection and the same draw
(extensional equality of the kit's `D` with the in-app draw body). -/
theorem c5_kit_refines_app (d : ℚ) (i : ℕ) (fw fh W H : ℚ) (L : ℕ)
    (frames : List Frame) (p : ℚ) (hp0 : 0 ≤ p) (hp1 : p ≤ 1) :
    kitFrameCount = FRAME_COUNT ∧
    kitCaptureTime d i = captureTime d FRAME_COUNT i ∧
    kitCover fw fh W H = coverFit fw fh W H ∧
    kitFrameIndex L p = frameIndex L p ∧
    kitRender frames W H p = drawFraction frames W H p := by
  have hidx : ∀ M : ℕ, kitFrameIndex M p = frameIndex M p := by
    intro M
    rw [kitFrameIndex, frameIndex, clamp01_of_mem hp0 hp1]
  refine ⟨rfl, rfl, rfl, hidx L, ?_⟩
  unfold kitRender drawFraction
  rw [hidx frames.length]
  rfl

/-- Witness for C5 at fraction `1/2`. -/
theorem c5_kit_refines_app_witness :
    ((0 : ℚ) ≤ 1 / 2 ∧ (1 : ℚ) / 2 ≤ 1) ∧
    kitFrameIndex 100 (1 / 2) = frameIndex 100 (1 / 2) :=
  ⟨⟨by norm_num, by norm_num⟩,
   (c5_kit_refines_app 10 3 4 3 16 9 100 [] (1 / 2) (by norm_num)
      (by norm_num)).2.2.2.1⟩

/-- The scrubber's view of the world at draw time: the frame set, the
output surface size, and the scroll container metrics. -/
structure ScrubberState where
  frames : List Frame
  surfaceW : ℚ
  surfaceH : ℚ
  scrollTop : ℚ
  scrollRange : ℚ
deriving DecidableEq

/-- The component's scroll handler over a scrubber state. -/
def handleScroll (s : ScrubberState) : Option DrawCmd :=
  renderAt s.frames s.surfaceW s.surfaceH s.scrollTop s.scrollRange

/-- The component's resize handler: set the canvas to the new size, then
redraw by re-running the scroll handler (scroll metrics unchanged, frames
untouched). -/
def handleResize (s : ScrubberState) (newW newH : ℚ) :
    ScrubberState × Option DrawCmd :=
  (⟨s.frames, newW, newH, s.scrollTop, s.scrollRange⟩,
   handleScroll ⟨s.frames, newW, newH, s.scrollTop, s.scrollRange⟩)

lemma renderAt_none_iff (frames : List Frame) (W H st rg : ℚ) :
    renderAt frames W H st rg = none ↔ lookupFrame frames st rg = none := by
  unfold renderAt lookupFrame
  rcases hsf : scrollFraction st rg with _ | r
  · simp
  · show drawFraction frames W H r = none ↔
      getAt frames (frameIndex frames.length r) = none
    unfold drawFraction
    rcases hga : getAt frames (frameIndex frames.length r) with _ | f
    · simp
    · simp

lemma renderAt_clear (frames : List Frame) (W H st rg : ℚ) (c : DrawCmd)
    (h : renderAt frames W H st rg = some c) :
    c.clearW = W ∧ c.clearH = H := by
  unfold renderAt at h
  rcases hsf : scrollFraction st rg with _ | r
  · rw [hsf] at h
    exact Option.noConfusion h
  · rw [hsf] at h
    have h' : drawFraction frames W H r = some c := h
    unfold drawFraction at h'
    rcases hga : getAt frames (frameIndex frames.length r) with _ | f
    · rw [hga] at h'
      exact Option.noConfusion h'
    · rw [hga] at h'
      injection h' with h3
      subst h3
      exact ⟨rfl, rfl⟩

lemma renderAt_index_eq (frames : List Frame) (W1 H1 W2 H2 st rg : ℚ)
    (c1 c2 : DrawCmd) (h1 : renderAt frames W1 H1 st rg = some c1)
    (h2 : renderAt frames W2 H2 st rg = some c2) : c1.index = c2.index := by
  unfold renderAt at h1 h2
  rcases hsf : scrollFraction st rg with _ | r
  · rw [hsf] at h1
    exact Option.noConfusion h1
  · rw [hsf] at h1 h2
    have h1' : drawFraction frames W1 H1 r = some c1 := h1
    have h2' : drawFraction frames W2 H2 r = some c2 := h2
    unfold drawFraction at h1' h2'
    rcases hga : getAt frames (frameIndex frames.length r) with _ | f
    · rw [hga] at h1'
      exact Option.noConfusion h1'
    · rw [hga] at h1' h2'
      injection h1' with h3
      injection h2' with h4
      subst h3
      subst h4
      rfl

/-- C9.  On a surface size change the resize handler keeps the frame set
untouched (no re-sampling) and immediately redraws at the unchanged scroll
metrics: the emitted draw (when one happens) clears and fills the new
surface size, selects the same frame index as the pre-resize draw, and a
draw happens after the resize exactly when one happened before. -/
theorem c9_resize_redraw (s : ScrubberState) (newW newH : ℚ) :
    (handleResize s newW newH).1.frames = s.frames ∧
    (∀ c, (handleResize s newW newH).2 = some c →
      c.clearW = newW ∧ c.clearH = newH) ∧
    (∀ c c2, (handleResize s newW newH).2 = some c →
      handleScroll s = some c2 → c.index = c2.index) ∧
    ((handleResize s newW newH).2 = none ↔ handleScroll s = none) := by
  have hr : (handleResize s newW newH).2 =
      renderAt s.frames newW newH s.scrollTop s.scrollRange := rfl
  have hs : handleScroll s =
      renderAt s.frames s.surfaceW s.surfaceH s.scrollTop s.scrollRange := rfl
  refine ⟨rfl, ?_, ?_, ?_⟩
  · intro c hc
    rw [hr] at hc
    exact renderAt_clear _ _ _ _ _ _ hc
  · intro c c2 hc hc2
    rw [hr] at hc
    rw [hs] at hc2
    exact renderAt_index_eq _ _ _ _ _ _ _ _ _ hc hc2
  · rw [hr, hs, renderAt_none_iff, renderAt_none_iff]

/-- C10.  When the frame lookup yields no bitmap — the frame set is empty,
the computed index falls outside the array, or the scroll fraction is NaN
because the scrollable range is zero — the draw routine does nothing: no
clear, no draw, the surface's contents unchanged; and the exported kit's
`D` guards identically. -/
theorem c10_draw_guard (frames : List Frame) (W H st rg p : ℚ)
    (surf : List DrawCmd) :
    (lookupFrame frames st rg = none →
      renderAt frames W H st rg = none ∧
      applyDraw surf (renderAt frames W H st rg) = surf) ∧
    (frames = [] → renderAt frames W H st rg = none) ∧
    (getAt frames (kitFrameIndex frames.length p) = none →
      kitRender frames W H p = none ∧
      applyDraw surf (kitRender frames W H p) = surf) := by
  refine ⟨?_, ?_, ?_⟩
  · intro h
    have hn := (renderAt_none_iff frames W H st rg).mpr h
    exact ⟨hn, by rw [hn]; rfl⟩
  · intro h
    subst h
    apply (renderAt_none_iff _ W H st rg).mpr
    unfold lookupFrame
    rcases hsf : scrollFraction st rg with _ | r
    · rfl
    · show getAt ([] : List Frame)
        (frameIndex (List.length ([] : List Frame)) r) = none
      unfold getAt
      by_cases hnn : 0 ≤ frameIndex (List.length ([] : List Frame)) r
      · rw [if_pos hnn]
        simp
      · rw [if_neg hnn]
  · intro h
    have hn : kitRender frames W H p = none := by
      unfold kitRender
      rw [h]
    exact ⟨hn, by rw [hn]; rfl⟩

/-- Witness for C10 at the NaN case (`scrollTop = 0`, zero range, empty
frame set). -/
theorem c10_draw_guard_witness :
    (lookupFrame [] 0 0 = none) ∧ renderAt [] 4 3 0 0 = none :=
  ⟨rfl, ((c10_draw_guard [] 4 3 0 0 0 []).1 rfl).1⟩

/-- A concrete 16x9 bitmap used by the resize witness. -/
def frame0 : Frame := ⟨16, 9, 0⟩

/-- A concrete armed scrubber state: one frame, 4x3 surface, scroll at the
top of a range of 5. -/
def scrub0 : ScrubberState := ⟨[frame0], 4, 3, 0, 5⟩

/-- The draw emitted after resizing `scrub0` to a 7x5 surface. -/
def cmd0 : DrawCmd := ⟨0, 7, 5, 80 / 9, 5, -17 / 18, 0⟩

lemma resize_scrub0_draw : (handleResize scrub0 7 5).2 = some cmd0 := by
  show renderAt [frame0] 7 5 0 5 = some cmd0
  unfold renderAt
  have hsf : scrollFraction 0 5 = some 0 := by
    unfold scrollFraction
    norm_num
  rw [hsf]
  show drawFraction [frame0] 7 5 0 = some cmd0
  unfold drawFraction
  have hidx : frameIndex (List.length [frame0]) 0 = 0 := by
    rw [frameIndex, clamp01_of_mem le_rfl (by norm_num)]
    norm_num
  rw [hidx]
  have hga : getAt [frame0] 0 = some frame0 := rfl
  rw [hga]
  show some (⟨(0 : ℤ).toNat, 7, 5, (coverFit 16 9 7 5).1,
    (coverFit 16 9 7 5).2.1, (coverFit 16 9 7 5).2.2.1,
    (coverFit 16 9 7 5).2.2.2⟩ : DrawCmd) = some cmd0
  have hcov : coverFit 16 9 7 5 = (80 / 9, 5, -17 / 18, 0) := by
    unfold coverFit
    rw [if_neg (by norm_num)]
    norm_num [Prod.ext_iff]
  rw [hcov]
  rfl

/-- Witness for C9 at a concrete resize that emits a draw. -/
theorem c9_resize_redraw_witness :
    ((handleResize scrub0 7 5).2 = some cmd0) ∧
    (cmd0.clearW = 7 ∧ cmd0.clearH = 5) ∧
    (handleResize scrub0 7 5).1.frames = scrub0.frames :=
  ⟨resize_scrub0_draw,
   (c9_resize_redraw scrub0 7 5).2.1 cmd0 resize_scrub0_draw,
   (c9_resize_redraw scrub0 7 5).1⟩
